import Mathlib

/-!
Verification of the `nm` unit-testing framework against its design
specification.  The library module `nm` itself is not part of the
source tree (only its tests and callers are), so the core data model
and operations are modelled from the specification, and every model is
cross-checked against the concrete behaviour the test
programs (`src/main.cpp`, `src/test/main.cpp`) assert about the
library.
-/

namespace Nm

/-- Modelled from the spec: `Result` is "an accumulator of one boolean
outcome plus zero or more diagnostic messages" — a success flag and an
ordered sequence of messages.  The C++ type `nm::Result` lives in the
missing `nm` module. -/
structure Result where
  success : Bool
  messages : List String
deriving DecidableEq, Repr

/-- Modelled from the spec: "A freshly constructed `Result` (no
assertions yet) is vacuously successful with no messages."  Checked
against src/test/main.cpp:95-97 (`Result res; assert(res.Success());
assert(res.Messages().empty());`). -/
def Result.empty : Result := ⟨true, []⟩

/-- Modelled from the spec: `Merge(a, b) -> Result` with
`success = a.success && b.success` and
`messages = a.messages ++ b.messages` (spec 4.1); the implementation in
the missing `nm` module is the `operator&` overload used throughout the
tests. -/
def Result.merge (a b : Result) : Result :=
  ⟨a.success && b.success, a.messages ++ b.messages⟩

/-- Modelled from the tests (src/test/main.cpp:95-104 and
src/main.cpp:79-88): the chain operator `&` accumulates into its
left-hand `Result` in place and returns it, so after
`r & b1 & ... & bn` the variable `r` holds the fold of the merges.
This definition gives the value held by the left operand after such a
chain. -/
def Result.chainAmp (r : Result) : List Result → Result
  | [] => r
  | b :: bs => Result.chainAmp (Result.merge r b) bs

/-- Modelled from the tests (src/test/main.cpp:99-103):
evaluating `a & b` leaves the left operand holding the merged value
(the returned reference is the left operand itself).  This definition
gives the value of the left operand `a` after `a & b` is evaluated. -/
def Result.ampLeftAfter (a b : Result) : Result := Result.merge a b

/-- Modelled from the tests: the right operand of `a & b`
is taken by const reference and is not written to; this definition
gives the value of the right operand `b` after `a & b` is evaluated. -/
def Result.ampRightAfter (_a b : Result) : Result := b

/-- Helper shared by every assertion: a successful check contributes no
message, a failing check contributes exactly one message (spec 3:
"empty-message successes contribute nothing"). -/
def mkResult (ok : Bool) (msg : String) : Result :=
  if ok then ⟨true, []⟩ else ⟨false, [msg]⟩

/-- Modelled from the spec: a `Result` "can be compared directly with a
boolean" (src/main.cpp:15-23 `AssertSuccess`/`AssertFailure` use
`res == true` / `res == false`); the comparison mirrors the success
flag. -/
def Result.eqBool (r : Result) (b : Bool) : Bool :=
  r.success == b

/-- Modelled from the spec: integer `Equal(a, b, msg?)` — "success iff
`a` and `b` are equal per type-appropriate rule (exact value equality
otherwise)"; on failure the message is the caller-supplied one if
given, else a generated message naming the operands. -/
def EqualI (a b : Int) (msg : Option String := none) : Result :=
  mkResult (a == b) (msg.getD (toString a ++ " is not equal to " ++ toString b))

/-- Modelled from the spec: integer `NotEqual(a, b, msg?)` — "success
iff `Equal` would fail; same message convention, inverted". -/
def NotEqualI (a b : Int) (msg : Option String := none) : Result :=
  mkResult (!(a == b)) (msg.getD (toString a ++ " is equal to " ++ toString b))

/-- Modelled from the spec: `True(x, msg?)` — success iff `x == true`. -/
def TrueA (x : Bool) (msg : Option String := none) : Result :=
  mkResult x (msg.getD "value is not true")

/-- Modelled from the spec: `False(x, msg?)` — success iff `x == false`. -/
def FalseA (x : Bool) (msg : Option String := none) : Result :=
  mkResult (!x) (msg.getD "value is not false")

end Nm

namespace Nm

/-- A floating-point value of either supported width, abstracted for the
float-equality algorithm: NaN, a signed infinity (`true` = positive),
or a finite value represented exactly as a rational. -/
inductive FP where
  | nan : FP
  | inf (pos : Bool) : FP
  | finite (q : ℚ) : FP
deriving DecidableEq, Repr

/-- Tolerance parameters of one floating-point width (spec 4.3: "Exact
tolerance constants are an implementation parameter per floating-point
width"). -/
structure Tol where
  absFloor : ℚ
  relTol : ℚ
deriving DecidableEq, Repr

/-- Modelled from the spec: constants for the 32-bit width, chosen per
spec 4.3 so that the absolute floor covers subnormal comparisons
(`1e-40f` vs `2e-40f` equal) while a `2e-9` gap across zero exceeds it,
and the relative tolerance accepts a `1e-6` deviation at scale 1 but
rejects `1e-3` at scale 1 and `1e4` at scale `1e8`. -/
def floatTol : Tol := ⟨1 / 10 ^ 38, 1 / 10 ^ 5⟩

/-- Modelled from the spec: constants for the 64-bit width, chosen per
spec 4.3 and the pinned test cases (src/test/main.cpp:44,48,52,62,63)
so that `1e-320` vs `2e-320` is within the absolute floor and the
relative tolerance accepts `1.0` at scale `1e16` but rejects `1e-12`
and `1e-8` at scale 1 and `1e8` at scale `1e16`. -/
def doubleTol : Tol := ⟨1 / 10 ^ 308, 1 / 10 ^ 13⟩

/-- Modelled from the spec (4.3 Float Equality Algorithm), in priority
order: NaN is never equal to anything; an infinity is equal exactly to
an infinity of the same sign and never to any finite value; otherwise
`d = |a - b|` and equality holds iff `d` is within the absolute floor
tolerance or within the relative tolerance scaled by
`max(|a|, |b|)`. -/
def fpEqual (w : Tol) : FP → FP → Bool
  | .nan, _ => false
  | _, .nan => false
  | .inf s, .inf t => s == t
  | .inf _, .finite _ => false
  | .finite _, .inf _ => false
  | .finite a, .finite b =>
      decide (|a - b| ≤ w.absFloor) || decide (|a - b| ≤ w.relTol * max |a| |b|)

/-- Modelled from the spec: floating-point `Equal(a, b, msg?)` built on
the float-equality algorithm. -/
def EqualF (w : Tol) (a b : FP) (msg : Option String := none) : Result :=
  mkResult (fpEqual w a b) (msg.getD "floating values are not equal")

/-- Modelled from the spec: floating-point `NotEqual(a, b, msg?)` —
"success iff `Equal` would fail; same message convention, inverted". -/
def NotEqualF (w : Tol) (a b : FP) (msg : Option String := none) : Result :=
  mkResult (!(fpEqual w a b)) (msg.getD "floating values are equal")

end Nm

namespace Nm

/-- Modelled from the spec (3 Data Model): a `Test` is a named unit
with a tag set, optional setup/teardown procedures (modelled by their
presence flags, since only their invocation order is observable), and a
body producing a `Result` (modelled by the value the body returns). -/
structure Test where
  name : String
  tags : List String
  setup : Bool
  teardown : Bool
  body : Result
deriving DecidableEq, Repr

/-- Modelled from the spec (3 Data Model): a `Suite` is a named,
ordered collection of `Test`s with its own optional setup/teardown;
tests are appended in registration order. -/
structure Suite where
  name : String
  setup : Bool
  teardown : Bool
  tests : List Test
deriving DecidableEq, Repr

/-- A suite as it is first created by lookup-or-create: empty, with no
setup or teardown attached yet. -/
def defaultSuite (n : String) : Suite := ⟨n, false, false, []⟩

/-- Modelled from the spec (4.5 Registry): the registry holds an
ordered sequence of suites; `GetOrCreate(name)` returns the existing
suite when the name was seen before, else creates and appends a new
empty suite.  `modifySuite` is the lookup-or-create step followed by an
operation on the resolved suite (the C++ code operates through the
returned reference). -/
def modifySuite : List Suite → String → (Suite → Suite) → List Suite
  | [], n, f => [f (defaultSuite n)]
  | s :: rest, n, f =>
      if s.name = n then f s :: rest else s :: modifySuite rest n f

/-- Lookup of a suite by name in a registry. -/
def findSuite : List Suite → String → Option Suite
  | [], _ => none
  | s :: rest, n => if s.name = n then some s else findSuite rest n

/-- The suite a lookup-or-create call resolves to: the stored suite
when present, else the fresh default one. -/
def getOr (r : List Suite) (n : String) : Suite :=
  (findSuite r n).getD (defaultSuite n)

/-- Modelled from the spec: `GetOrCreate` used only for its
lookup-or-create effect (`regs.Suite("Suite 1")` in src/main.cpp:65). -/
def ensureSuite (r : List Suite) (n : String) : List Suite :=
  modifySuite r n id

/-- Modelled from the spec: registering a test appends it to the tests
of the suite resolved by lookup-or-create, preserving registration
order (src/main.cpp:68-89, src/test/main.cpp:130-170). -/
def addTest (r : List Suite) (n : String) (t : Test) : List Suite :=
  modifySuite r n (fun s => { s with tests := s.tests ++ [t] })

/-- One observable step of an execution trace: invocation of a suite
setup/teardown procedure, of a per-test setup/teardown procedure, or of
a test body. -/
inductive Event where
  | suiteSetup (s : String) : Event
  | suiteTeardown (s : String) : Event
  | testSetup (s t : String) : Event
  | testBody (s t : String) : Event
  | testTeardown (s t : String) : Event
deriving DecidableEq, Repr

/-- The test name recorded by a body-execution event, if the event is
one. -/
def Event.bodyName : Event → Option String
  | .testBody _ t => some t
  | _ => none

/-- Modelled from the spec (4.4): running one test — test setup if
present, then the body, then the teardown if present, unconditionally
(the trace does not consult the Result of the body). -/
def runTest (sn : String) (t : Test) : List Event :=
  (if t.setup then [Event.testSetup sn t.name] else [])
    ++ [Event.testBody sn t.name]
    ++ (if t.teardown then [Event.testTeardown sn t.name] else [])

/-- Trace of running a list of tests in order. -/
def runTests (sn : String) : List Test → List Event
  | [] => []
  | t :: ts => runTest sn t ++ runTests sn ts

/-- Modelled from the spec (4.4): running a suite — suite setup once if
present, then every test in registration order, then suite teardown
once if present. -/
def runSuite (s : Suite) : List Event :=
  (if s.setup then [Event.suiteSetup s.name] else [])
    ++ runTests s.name s.tests
    ++ (if s.teardown then [Event.suiteTeardown s.name] else [])

end Nm

namespace Nm

/-- Modelled from the spec (3 Data Model): the parsed CLI query — a
suite-name filter, a tag filter, and a flag bitset. -/
structure CLIQuery where
  suiteFilter : List String
  tagFilter : List String
  flags : Nat
deriving DecidableEq, Repr

/-- Bit assigned to the `-h` flag. -/
def helpFlag : Nat := 1
/-- Bit assigned to the `-l` flag. -/
def listFlag : Nat := 2
/-- Bit assigned to the `-c` flag. -/
def caseSensitiveFlag : Nat := 4
/-- Bit assigned to the `-v` flag. -/
def verboseFlag : Nat := 8

/-- Whitespace recognised by the value trimming of the parser. -/
def isSpace (c : Char) : Bool :=
  c == ' ' || c == '\t' || c == '\n' || c == '\r'

/-- Strip leading and trailing whitespace from a character list. -/
def trimChars (l : List Char) : List Char :=
  ((l.dropWhile isSpace).reverse.dropWhile isSpace).reverse

/-- Split a character list at every comma. -/
def splitCommas : List Char → List (List Char)
  | [] => [[]]
  | c :: rest =>
      if c == ',' then [] :: splitCommas rest
      else
        match splitCommas rest with
        | [] => [[c]]
        | g :: gs => (c :: g) :: gs

/-- Modelled from the spec (4.6): a comma-separated list value — each
entry trimmed of surrounding whitespace, order preserved, empty entries
dropped. -/
def splitTrim (s : String) : List String :=
  ((splitCommas s.data).map (fun g => String.mk (trimChars g))).filter
    (fun e => !(e == ""))

/-- Modelled from the spec (4.6 CLI Query Parser): scan the token list
left to right; `-s`/`-t` consume the following token as a
comma-separated list (parse failure when none follows), flag tokens OR
their bit into the bitset, unrecognised tokens are skipped. -/
def getQueryAux : List String → CLIQuery → Option CLIQuery
  | [], q => some q
  | tok :: rest, q =>
      if tok == "-s" then
        match rest with
        | [] => none
        | v :: rest2 =>
            getQueryAux rest2 { q with suiteFilter := q.suiteFilter ++ splitTrim v }
      else if tok == "-t" then
        match rest with
        | [] => none
        | v :: rest2 =>
            getQueryAux rest2 { q with tagFilter := q.tagFilter ++ splitTrim v }
      else if tok == "-v" then getQueryAux rest { q with flags := q.flags ||| verboseFlag }
      else if tok == "-c" then getQueryAux rest { q with flags := q.flags ||| caseSensitiveFlag }
      else if tok == "-l" then getQueryAux rest { q with flags := q.flags ||| listFlag }
      else if tok == "-h" then getQueryAux rest { q with flags := q.flags ||| helpFlag }
      else getQueryAux rest q

/-- Modelled from the spec: `GetQuery` of the CLI parser
(src/test/main.cpp:186), starting from an empty query. -/
def GetQuery (args : List String) : Option CLIQuery :=
  getQueryAux args ⟨[], [], 0⟩

end Nm

namespace Nm

/-- The success flag of an assertion `Result` is exactly the boolean
outcome of its check. -/
theorem mkResult_success (ok : Bool) (m : String) : (mkResult ok m).success = ok := by
  cases ok <;> rfl

/-- The value of a chained accumulation is the fold of the merges:
success is the conjunction of all success flags, messages the
concatenation of all message sequences. -/
theorem chainAmp_eq (bs : List Result) (r : Result) :
    Result.chainAmp r bs =
      ⟨r.success && bs.all Result.success, r.messages ++ bs.flatMap Result.messages⟩ := by
  induction bs generalizing r with
  | nil => simp [Result.chainAmp]
  | cons b bs ih =>
      simp [Result.chainAmp, Result.merge, ih, Bool.and_assoc]

/-- C1: merging two `Result`s yields success equal to the conjunction
of the operand flags and the concatenation of their message sequences;
in particular a later failure message is kept even when an earlier
`Result` in the chain already failed (checked on the chain
`Equal(1,2) & NotEqual(1,1)` pinned at src/test/main.cpp:107-109). -/
theorem merge_success_and_concat (a b : Result) :
    (Result.merge a b).success = (a.success && b.success) ∧
    (Result.merge a b).messages = a.messages ++ b.messages ∧
    List.Sublist b.messages (Result.merge a b).messages ∧
    (Result.merge (EqualI 1 2) (NotEqualI 1 1)).success = false ∧
    (Result.merge (EqualI 1 2) (NotEqualI 1 1)).messages.length = 2 := by
  refine ⟨rfl, rfl, ?_, by decide, by decide⟩
  exact List.sublist_append_right _ _

/-- C5: the success flag of `NotEqual` is the negation of the success
flag of `Equal` on the same operands, for both floating widths
(including NaN and infinity operands) and for integers. -/
theorem notEqual_negates_equal (w : Tol) (a b : FP) (i j : Int) (m : Option String) :
    (NotEqualF w a b m).success = !(EqualF w a b m).success ∧
    (NotEqualI i j m).success = !(EqualI i j m).success := by
  constructor <;> simp [NotEqualF, EqualF, NotEqualI, EqualI, mkResult_success]

/-- C9 (as stated) is false: evaluating the chain operator on a
`Result` changes the left operand — after `res & Equal(1,2,msg)` the
variable `res` no longer holds its prior value, exactly as the test at
src/test/main.cpp:99-103 requires (`res` discards the chain value yet
ends up failed with two messages). -/
theorem merge_mutates_left_operand :
    Result.ampLeftAfter Result.empty (EqualI 1 2 (some "Cannot be equal")) ≠ Result.empty ∧
    (Result.chainAmp Result.empty
      [EqualI 1 2 (some "Cannot be equal"),
       NotEqualI 1 1 (some "Cannot be NOT equal")]).success = false ∧
    (Result.chainAmp Result.empty
      [EqualI 1 2 (some "Cannot be equal"),
       NotEqualI 1 1 (some "Cannot be NOT equal")]).messages.length = 2 := by
  refine ⟨by decide, by decide, by decide⟩

/-- C9 amended: the chain operator computes pure value composition
into its left operand — after `a & b` the left operand (which is also
the returned handle) holds exactly the merged value and the right
operand is unchanged; a chain starting from `r` leaves `r` holding the
fold of the merges. -/
theorem amp_accumulates_in_place (r b : Result) (bs : List Result) :
    Result.ampLeftAfter r b = Result.merge r b ∧
    Result.ampRightAfter r b = b ∧
    (Result.chainAmp r bs).success = (r.success && bs.all Result.success) ∧
    (Result.chainAmp r bs).messages = r.messages ++ bs.flatMap Result.messages := by
  refine ⟨rfl, rfl, ?_, ?_⟩ <;> rw [chainAmp_eq]

/-- C10: comparing a `Result` with a boolean mirrors its success flag:
`r == true` holds exactly when `r.Success()` does, `r == false` exactly
when it does not (checked on the assertion results that
src/main.cpp:31-43 feeds to `AssertSuccess`/`AssertFailure`). -/
theorem result_bool_comparison (r : Result) :
    (r.eqBool true = true ↔ r.success = true) ∧
    (r.eqBool false = true ↔ r.success = false) ∧
    (EqualI 1 1).eqBool true = true ∧
    (EqualI 1 2).eqBool false = true ∧
    (TrueA true).eqBool true = true ∧
    (FalseA true).eqBool false = true ∧
    (Result.merge Result.empty (EqualI 1 1)).eqBool true = true := by
  refine ⟨?_, ?_, by decide, by decide, by decide, by decide, by decide⟩ <;>
    cases h : r.success <;> simp [Result.eqBool, h]

end Nm

namespace Nm

/-- C2: the float-width `Equal` satisfies every concrete case the spec
pins down — `1e-6` off at scale 1 equal, `1e-3` off not; `1.0` off at
scale `1e8` equal, `1e4` off not; `1e-40` vs `2e-40` equal within the
absolute floor, `1e-40` vs `1e-30` not; near-zero values of opposite
sign unequal — together with the double-width cases the test program
pins at src/test/main.cpp:44-63. -/
theorem float_equal_concrete_cases :
    (EqualF floatTol (.finite 1) (.finite (1 + 1 / 10 ^ 6))).success = true ∧
    (EqualF floatTol (.finite 1) (.finite (1 + 1 / 10 ^ 3))).success = false ∧
    (EqualF floatTol (.finite (10 ^ 8)) (.finite (10 ^ 8 + 1))).success = true ∧
    (EqualF floatTol (.finite (10 ^ 8)) (.finite (10 ^ 8 + 10 ^ 4))).success = false ∧
    (EqualF floatTol (.finite (1 / 10 ^ 40)) (.finite (2 / 10 ^ 40))).success = true ∧
    (EqualF floatTol (.finite (1 / 10 ^ 40)) (.finite (1 / 10 ^ 30))).success = false ∧
    (EqualF floatTol (.finite (1 / 10 ^ 9)) (.finite (-(1 / 10 ^ 9)))).success = false ∧
    (EqualF doubleTol (.finite 1) (.finite (1 + 1 / 10 ^ 12))).success = false ∧
    (EqualF doubleTol (.finite (1 / 10 ^ 320)) (.finite (2 / 10 ^ 320))).success = true ∧
    (EqualF doubleTol (.finite (10 ^ 16)) (.finite (10 ^ 16 + 1))).success = true ∧
    (EqualF doubleTol (.finite (10 ^ 16)) (.finite (10 ^ 16 + 10 ^ 8))).success = false := by
  refine ⟨?_, ?_, ?_, ?_, ?_, ?_, ?_, ?_, ?_, ?_, ?_⟩ <;>
    norm_num [EqualF, mkResult_success, fpEqual, floatTol, doubleTol,
      abs_of_nonneg, abs_of_nonpos]

/-- C3: in both supported widths, `Equal` succeeds on every finite
value compared with itself and fails whenever either operand is NaN,
including NaN compared with itself. -/
theorem equal_reflexive_and_nan_fails (q : ℚ) (x : FP) :
    (EqualF floatTol (.finite q) (.finite q)).success = true ∧
    (EqualF doubleTol (.finite q) (.finite q)).success = true ∧
    (EqualF floatTol .nan x).success = false ∧
    (EqualF floatTol x .nan).success = false ∧
    (EqualF doubleTol .nan x).success = false ∧
    (EqualF doubleTol x .nan).success = false := by
  refine ⟨?_, ?_, ?_, ?_, ?_, ?_⟩ <;>
    cases x <;>
      norm_num [EqualF, mkResult_success, fpEqual, floatTol, doubleTol]

/-- C4: when an infinity is involved, `Equal` succeeds exactly when
both operands are infinite with the same sign; an infinity never
equals any finite value, in either width. -/
theorem equal_infinity_cases (s t : Bool) (q : ℚ) :
    (EqualF floatTol (.inf s) (.inf t)).success = (s == t) ∧
    (EqualF floatTol (.inf s) (.finite q)).success = false ∧
    (EqualF floatTol (.finite q) (.inf s)).success = false ∧
    (EqualF doubleTol (.inf s) (.inf t)).success = (s == t) ∧
    (EqualF doubleTol (.inf s) (.finite q)).success = false ∧
    (EqualF doubleTol (.finite q) (.inf s)).success = false ∧
    (EqualF floatTol (.inf true) (.inf true)).success = true ∧
    (EqualF floatTol (.inf true) (.inf false)).success = false := by
  refine ⟨?_, ?_, ?_, ?_, ?_, ?_, ?_, ?_⟩ <;>
    simp [EqualF, mkResult_success, fpEqual]

end Nm

namespace Nm

/-- Lookup after a lookup-or-create operation resolves to the operated
suite: the stored one when the name was seen before, else the fresh
default one. -/
theorem modifySuite_findSuite (r : List Suite) (n : String) (f : Suite → Suite)
    (hf : ∀ s, (f s).name = s.name) :
    findSuite (modifySuite r n f) n = some (f (getOr r n)) := by
  induction r with
  | nil => simp [modifySuite, findSuite, getOr, hf, defaultSuite]
  | cons s rest ih =>
      by_cases h : s.name = n
      · simp [modifySuite, findSuite, getOr, h, hf]
      · simp [modifySuite, findSuite, getOr, h, hf, ih]

/-- Two lookup-or-create operations on the same name compose on the
single resolved suite: the second request never creates another
suite. -/
theorem modifySuite_modifySuite (r : List Suite) (n : String) (f g : Suite → Suite)
    (hf : ∀ s, (f s).name = s.name) :
    modifySuite (modifySuite r n f) n g = modifySuite r n (fun s => g (f s)) := by
  induction r with
  | nil => simp [modifySuite, hf, defaultSuite]
  | cons s rest ih =>
      by_cases h : s.name = n
      · simp [modifySuite, h, hf]
      · simp [modifySuite, h, hf, ih]

/-- A lookup-or-create operation grows the registry by one suite
exactly when the name is new. -/
theorem modifySuite_length (r : List Suite) (n : String) (f : Suite → Suite) :
    (modifySuite r n f).length =
      if (findSuite r n).isSome then r.length else r.length + 1 := by
  induction r with
  | nil => simp [modifySuite, findSuite]
  | cons s rest ih =>
      by_cases h : s.name = n
      · simp [modifySuite, findSuite, h]
      · simp [modifySuite, findSuite, h, ih]
        by_cases h2 : (findSuite rest n).isSome <;> simp [h2]

/-- C6: suite lookup-or-create is idempotent — a second request for
the same name changes nothing and resolves to the very suite stored by
the first (setup/teardown preserved), a request adds a suite exactly
when the name is new, and tests registered through two successive
lookups of the same name both land in that one suite, appended in
registration order. -/
theorem registry_get_or_create_idempotent (r : List Suite) (n : String) (t1 t2 : Test) :
    ensureSuite (ensureSuite r n) n = ensureSuite r n ∧
    findSuite (ensureSuite r n) n = some (getOr r n) ∧
    (ensureSuite r n).length =
      (if (findSuite r n).isSome then r.length else r.length + 1) ∧
    findSuite (addTest (addTest r n t1) n t2) n =
      some { getOr r n with tests := (getOr r n).tests ++ [t1, t2] } := by
  refine ⟨?_, ?_, ?_, ?_⟩
  · exact modifySuite_modifySuite r n id id (fun s => rfl)
  · simpa using modifySuite_findSuite r n id (fun s => rfl)
  · exact modifySuite_length r n id
  · rw [addTest, addTest, modifySuite_modifySuite r n _ _ (by intro s; rfl),
      modifySuite_findSuite r n _ (by intro s; rfl)]
    simp

end Nm

namespace Nm

/-- Running one test executes its body exactly once. -/
theorem runTest_bodyNames (sn : String) (t : Test) :
    (runTest sn t).filterMap Event.bodyName = [t.name] := by
  cases h1 : t.setup <;> cases h2 : t.teardown <;>
    simp [runTest, h1, h2, Event.bodyName]

/-- The bodies executed by a test list are exactly the tests, in
order. -/
theorem runTests_bodyNames (sn : String) (ts : List Test) :
    (runTests sn ts).filterMap Event.bodyName = ts.map Test.name := by
  induction ts with
  | nil => simp [runTests]
  | cons t ts ih => simp [runTests, List.filterMap_append, runTest_bodyNames, ih]

/-- Within one test run, the body is followed by the teardown whenever
a teardown is attached — independently of the Result the body
produced. -/
theorem runTest_body_then_teardown (sn : String) (t : Test) (h : t.teardown = true) :
    List.Sublist [Event.testBody sn t.name, Event.testTeardown sn t.name] (runTest sn t) := by
  cases h1 : t.setup <;> simp [runTest, h1, h]

/-- The run of a registered test is contained in the run of its test
list. -/
theorem runTest_sublist_runTests (sn : String) (t : Test) (ts : List Test) (h : t ∈ ts) :
    List.Sublist (runTest sn t) (runTests sn ts) := by
  induction ts with
  | nil => cases h
  | cons u ts ih =>
      rcases List.mem_cons.mp h with h | h
      · subst h
        exact List.sublist_append_left _ _
      · exact (ih h).trans (List.sublist_append_right _ _)

/-- The run of the test list is contained in the run of the suite. -/
theorem runTests_sublist_runSuite (s : Suite) :
    List.Sublist (runTests s.name s.tests) (runSuite s) :=
  (List.sublist_append_right _ _).trans (List.sublist_append_left _ _)

/-- Test execution never invokes a suite setup procedure. -/
theorem suiteSetup_not_mem_runTests (sn x : String) (ts : List Test) :
    Event.suiteSetup x ∉ runTests sn ts := by
  induction ts with
  | nil => simp [runTests]
  | cons t ts ih =>
      cases h1 : t.setup <;> cases h2 : t.teardown <;>
        simp [runTests, runTest, h1, h2, ih]

/-- Test execution never invokes a suite teardown procedure. -/
theorem suiteTeardown_not_mem_runTests (sn x : String) (ts : List Test) :
    Event.suiteTeardown x ∉ runTests sn ts := by
  induction ts with
  | nil => simp [runTests]
  | cons t ts ih =>
      cases h1 : t.setup <;> cases h2 : t.teardown <;>
        simp [runTests, runTest, h1, h2, ih]

/-- C7: a suite run executes the test bodies exactly in registration
order; every registered test with a teardown has its teardown executed
after its body (the trace is built without consulting the body
Result, so this holds for failing bodies too); when present, the suite
setup is the first event and the suite teardown the last, and each is
invoked exactly once. -/
theorem suite_execution_order (s : Suite) :
    (runSuite s).filterMap Event.bodyName = s.tests.map Test.name ∧
    (∀ t, t ∈ s.tests → t.teardown = true →
      List.Sublist [Event.testBody s.name t.name, Event.testTeardown s.name t.name]
        (runSuite s)) ∧
    (s.setup = true → (runSuite s).head? = some (Event.suiteSetup s.name)) ∧
    (s.teardown = true → (runSuite s).getLast? = some (Event.suiteTeardown s.name)) ∧
    (runSuite s).count (Event.suiteSetup s.name) = (if s.setup then 1 else 0) ∧
    (runSuite s).count (Event.suiteTeardown s.name) = (if s.teardown then 1 else 0) := by
  refine ⟨?_, ?_, ?_, ?_, ?_, ?_⟩
  · cases h1 : s.setup <;> cases h2 : s.teardown <;>
      simp [runSuite, h1, h2, List.filterMap_append, runTests_bodyNames, Event.bodyName]
  · intro t ht htd
    exact (runTest_body_then_teardown s.name t htd).trans
      ((runTest_sublist_runTests s.name t s.tests ht).trans (runTests_sublist_runSuite s))
  · intro h
    cases h2 : s.teardown <;> simp [runSuite, h, h2]
  · intro h
    cases h1 : s.setup
    · rw [show runSuite s = runTests s.name s.tests ++ [Event.suiteTeardown s.name] by
        simp [runSuite, h, h1], List.getLast?_append_cons]
      rfl
    · rw [show runSuite s =
          (Event.suiteSetup s.name :: runTests s.name s.tests) ++ [Event.suiteTeardown s.name] by
        simp [runSuite, h, h1], List.getLast?_append_cons]
      rfl
  · have hm := suiteSetup_not_mem_runTests s.name s.name s.tests
    cases h1 : s.setup <;> cases h2 : s.teardown <;>
      simp [runSuite, h1, h2, List.count_append, List.count_eq_zero.mpr hm]
  · have hm := suiteTeardown_not_mem_runTests s.name s.name s.tests
    cases h1 : s.setup <;> cases h2 : s.teardown <;>
      simp [runSuite, h1, h2, List.count_append, List.count_eq_zero.mpr hm]

/-- The first test registered in "Suite 1" by src/main.cpp:68-77: has
setup and teardown attached and a body whose chain
`Report{} & Equal(1,1) & Equal(1,2)` fails. -/
def demoTest1 : Test :=
  ⟨"Test 1.1", [], true, true, Result.chainAmp Result.empty [EqualI 1 1, EqualI 1 2]⟩

/-- The second test registered in "Suite 1" by src/main.cpp:79-88. -/
def demoTest2 : Test :=
  ⟨"Test 1.2", [], true, true, Result.chainAmp Result.empty [EqualI 1 1, EqualI 1 2]⟩

/-- The suite built by src/main.cpp:65-89: setup, teardown and two
tests. -/
def demoSuite : Suite := ⟨"Suite 1", true, true, [demoTest1, demoTest2]⟩

/-- Witness for C7 on the suite of src/main.cpp:65-89: the first test
has a failing body, yet its teardown event appears after its body
event; the suite setup opens and the suite teardown closes the
trace. -/
theorem suite_execution_order_witness :
    demoTest1.body.success = false ∧
    demoTest1.teardown = true ∧
    List.Sublist [Event.testBody "Suite 1" "Test 1.1", Event.testTeardown "Suite 1" "Test 1.1"]
      (runSuite demoSuite) ∧
    (runSuite demoSuite).head? = some (Event.suiteSetup "Suite 1") ∧
    (runSuite demoSuite).getLast? = some (Event.suiteTeardown "Suite 1") :=
  ⟨by decide, rfl,
    (suite_execution_order demoSuite).2.1 demoTest1 (by simp [demoSuite]) rfl,
    (suite_execution_order demoSuite).2.2.1 rfl,
    (suite_execution_order demoSuite).2.2.2.1 rfl⟩

/-- The argument vector the test program hands to the parser
(src/test/main.cpp:182-184, after dropping the program name). -/
def demoArgs : List String :=
  ["-s", "math,core", "-t", "fast , slow", "-v", "-c", "-l", "-h"]

/-- C8: parsing the pinned token sequence yields suite filter
`["math", "core"]`, tag filter `["fast", "slow"]` (entries trimmed of
surrounding whitespace, order preserved) and all four flag bits set,
while a trailing `-s` or `-t` with no following value makes the whole
parse return the empty result. -/
theorem cli_query_parse_cases :
    GetQuery demoArgs =
      some ⟨["math", "core"], ["fast", "slow"],
        helpFlag ||| listFlag ||| caseSensitiveFlag ||| verboseFlag⟩ ∧
    (Option.all (fun q =>
      (q.flags &&& helpFlag != 0) && (q.flags &&& listFlag != 0) &&
      (q.flags &&& caseSensitiveFlag != 0) && (q.flags &&& verboseFlag != 0))
      (GetQuery demoArgs)) = true ∧
    GetQuery ["-s"] = none ∧
    GetQuery ["-t"] = none ∧
    GetQuery ["-s", "math,core", "-t"] = none := by
  refine ⟨by decide, by decide, by decide, by decide, by decide⟩

end Nm
